import Mathlib

/-!
Verification of the reply/edit lifecycle and translation resolution of
src/components/command/context/Context.ts (class Context).

Modelling conventions:
* A chat message handle is reduced to the data the code inspects: an id and
  the size of its attachment collection (only truthiness of
  attachments.size is ever used).
* The externally owned collaborators (the channel's send, a message's edit
  capability, the client handler registry, the dispatcher's resolver
  registry and getLanguage callback) are an explicit environment Env of
  pure functions; an async call is modelled as a pure call, matching the
  single-threaded cooperative model (one context is never used
  concurrently).
* The mutable state of a Context (shouldEdit, lastResponse, messages,
  parseIndex) is a structure passed and returned explicitly; the readonly
  identity fields (message, client, dispatcher, author, member, guild,
  channel) carry no behaviour here and are reached only through Env.
* A thrown JS error is Except.error: Err.domain for a thrown Error with a
  message, Err.runtimeNull for a runtime null/undefined property access
  (TypeError), which the code never throws deliberately.
-/

namespace Blade

/-- Chat-platform message handle, reduced to the fields the code reads:
its id and the size of its attachments collection. -/
structure Message where
  id : String
  attachmentsSize : Nat
  deriving Repr, DecidableEq

/-- Argument of reply/edit: content is a string or an Embed
(string | Embed in the source); the embed payload itself is opaque. -/
inductive Content where
  | text : String → Content
  | embed : String → Content
  deriving Repr, DecidableEq

/-- What actually reaches channel.send or Message#edit: either the plain
string, or a builder invocation b.setEmbed(content) wrapping the embed
(the message-builder convention). -/
inductive SendPayload where
  | plain : String → SendPayload
  | builderEmbed : String → SendPayload
  deriving Repr, DecidableEq

/-- Dispatch performed by both reply and edit:
typeof content === string ? f(content) : f(b => b.setEmbed(content)). -/
def contentToPayload : Content → SendPayload
  | Content.text s => SendPayload.plain s
  | Content.embed e => SendPayload.builderEmbed e

/-- Failure classes: a thrown Error carrying a message (domain), or a
runtime null/undefined property access (runtimeNull). -/
inductive Err where
  | runtimeNull : Err
  | domain : String → Err
  deriving Repr, DecidableEq

/-- Translation variables object (Dictionary in the source). -/
def Dictionary : Type := List (String × String)

/-- Language collaborator: translate(path, vars). -/
structure Language where
  translate : String → Dictionary → String

/-- LanguageHandler collaborator: get(code) yields a Language or nothing. -/
structure LanguageHandler where
  get : String → Option Language

/-- Mutable per-invocation state of class Context. shouldEdit starts
false, lastResponse starts undefined, messages starts as an empty ordered
map, parseIndex starts at 0 (constructor lines 95-97). -/
structure Context where
  shouldEdit : Bool
  lastResponse : Option Message
  messages : List (String × Message)
  parseIndex : Nat
  deriving Repr, DecidableEq

/-- State established by the constructor. -/
def Context.init : Context :=
  { shouldEdit := false, lastResponse := none, messages := [], parseIndex := 0 }

/-- External collaborators, as pure functions:
channelSend is this.channel.send (returning the array of sent messages);
messageEdit is Message#edit (returning the edited handle);
handlers is this.client.handlers.get;
getLanguage is this.dispatcher.options.getLanguage (resolving a code);
resolverType is this.dispatcher.resolver.type (registry lookup). -/
structure Env where
  channelSend : SendPayload → List Message
  messageEdit : Message → SendPayload → Message
  handlers : String → Option LanguageHandler
  getLanguage : Context → String
  resolverType : String → Option (String → Context → Option String)

/-- Context#language: looks up the languages handler by the fixed key;
undefined when absent; otherwise handler.get of the code produced by the
dispatcher's getLanguage callback applied to this context. -/
def Context.language (ctx : Context) (env : Env) : Option Language :=
  match env.handlers "languages" with
  | none => none
  | some languages => languages.get (env.getLanguage ctx)

/-- Context#edit: dereferences this.lastResponse with a non-null assertion
(runtime null access when absent) and delegates to its edit capability,
with the same text-vs-embed dispatch as reply. The source assigns no
field, so the context is unchanged by construction. -/
def Context.edit (ctx : Context) (env : Env) (content : Content) : Except Err Message :=
  match ctx.lastResponse with
  | none => Except.error Err.runtimeNull
  | some m => Except.ok (env.messageEdit m (contentToPayload content))

/-- JS truthiness of this.lastResponse?.attachments.size: false when
lastResponse is undefined (optional chaining yields undefined) or when the
size is 0; true when the size is nonzero. -/
def attachTruthy : Option Message → Bool
  | none => false
  | some m => m.attachmentsSize != 0

/-- Branch condition of reply (line 117):
this.shouldEdit && !this.lastResponse?.attachments.size. -/
def Context.usesEdit (ctx : Context) : Bool :=
  ctx.shouldEdit && !attachTruthy ctx.lastResponse

/-- Context#setLastResponse: for an array, records the last element
(message.slice(-1)[0], undefined for an empty array); for a single
message, records it; returns the recorded value. -/
def Context.setLastResponse (ctx : Context) (message : Message ⊕ List Message) :
    Context × Option Message :=
  match message with
  | Sum.inl m => ({ ctx with lastResponse := some m }, some m)
  | Sum.inr ms => ({ ctx with lastResponse := ms.getLast? }, ms.getLast?)

/-- Context#setEditable: assigns shouldEdit. -/
def Context.setEditable (ctx : Context) (state : Bool) : Context :=
  { ctx with shouldEdit := state }

/-- Send path of Context#reply (lines 121-128): sends the dispatched
payload, records the last sent message via setLastResponse, recomputes
shouldEdit as !lastSent.attachments.size via setEditable, and returns
messages[messages.length - 1]. When the send yields no message, lastSent
is undefined and the attachments access is a runtime null access (after
lastResponse was already overwritten). -/
def Context.sendReply (ctx : Context) (env : Env) (content : Content) :
    Except Err (Context × Message) :=
  let msgs := env.channelSend (contentToPayload content)
  let sr := ctx.setLastResponse (Sum.inr msgs)
  match sr.2 with
  | none => Except.error Err.runtimeNull
  | some lastSent =>
    match msgs.getLast? with
    | none => Except.error Err.runtimeNull
    | some ret => Except.ok (sr.1.setEditable (!(lastSent.attachmentsSize != 0)), ret)

/-- Context#reply (lines 116-129): when shouldEdit is set and the last
response has no (truthy) attachments, returns this.edit(content) leaving
the state untouched; otherwise performs the send path. -/
def Context.reply (ctx : Context) (env : Env) (content : Content) :
    Except Err (Context × Message) :=
  if ctx.usesEdit then (ctx.edit env content).map (fun m => (ctx, m))
  else ctx.sendReply env content

/-- Sequencing of successive reply calls on one context (each call awaited
before the next, per the cooperative model). -/
def Context.replyAll (ctx : Context) (env : Env) : List Content → Except Err Context
  | [] => Except.ok ctx
  | c :: cs =>
    match ctx.reply env c with
    | Except.ok r => r.1.replyAll env cs
    | Except.error e => Except.error e

/-- Message of the error thrown by Context#resolve (line 149). -/
def unknownTypeMsg (type : String) : String :=
  "Type \"" ++ type ++ "\" does not exist."

/-- Context#resolve (lines 147-151): registry lookup, throw when
unregistered, else invoke the resolver with (value, this) and coalesce a
missing result to null (none). -/
def Context.resolve (ctx : Context) (env : Env) (value : String) (type : String) :
    Except Err (Option String) :=
  match env.resolverType type with
  | none => Except.error (Err.domain (unknownTypeMsg type))
  | some resolver => Except.ok (resolver value ctx)

/-- Context#translate (lines 158-162): delegate to the resolved language,
else throw. -/
def Context.translate (ctx : Context) (env : Env) (path : String) (vars : Dictionary) :
    Except Err String :=
  match ctx.language env with
  | some language => Except.ok (language.translate path vars)
  | none => Except.error (Err.domain "No Language Handler Available")

/-- JS value as it can appear in the values array of the inner closure of
Context#t: undefined, a string, or an array of optional strings (the
un-spread rest array that the call translate()(a1, a2) passes as the
single element of values). -/
inductive JSVal where
  | undef : JSVal
  | str : String → JSVal
  | strArr : List (Option String) → JSVal
  deriving Repr, DecidableEq

/-- JS nullish coalescing values[i] ?? "". -/
def nullishCoalesceEmpty : JSVal → JSVal
  | JSVal.undef => JSVal.str ""
  | v => v

/-- JS string coercion applied by the + operator: a string is itself, an
array joins its elements with commas (undefined elements become the empty
string), a bare undefined would print as its name. -/
def JSVal.toStr : JSVal → String
  | JSVal.undef => "undefined"
  | JSVal.str s => s
  | JSVal.strArr xs => String.intercalate "," (xs.map (fun v => v.getD ""))

/-- Inner closure of Context#t (line 176):
strings.map((s, i) => s + (values[i] ?? "")).join(""). -/
def tagJoin (strings : List String) (values : List JSVal) : String :=
  String.join ((strings.enum).map
    (fun p => p.2 ++ (nullishCoalesceEmpty (values.getD p.1 JSVal.undef)).toStr))

/-- Context#t invoked as a template tag (Array.isArray branch, line 181):
the code calls translate()(a1, a2), so the whole rest array a2 becomes the
single element values[0] of the inner closure, and the joined path is
passed to translate with no extra variables. -/
def Context.t (ctx : Context) (env : Env) (strings : List String)
    (a2 : List (Option String)) : Except Err String :=
  ctx.translate env (tagJoin strings [JSVal.strArr a2]) []

/-- Tag join as the specification words it (for comparison with tagJoin):
literal segments concatenated with the stringified interpolated values in
order, an undefined value contributing the empty string. -/
def specTagJoin (strings : List String) (values : List (Option String)) : String :=
  String.join ((strings.enum).map (fun p => p.2 ++ (values.getD p.1 none).getD ""))

/-- Concrete message with no attachments returned by the send of env0. -/
def msg0 : Message := { id := "r1", attachmentsSize := 0 }

/-- Concrete message carrying two attachments, returned by envB. -/
def msgB : Message := { id := "b1", attachmentsSize := 2 }

/-- Concrete handle returned by the messageEdit collaborator of env0. -/
def editedMsg : Message := { id := "edited", attachmentsSize := 0 }

/-- Concrete Language whose translate prefixes the path. -/
def lang0 : Language := { translate := fun path _ => "t:" ++ path }

/-- Concrete LanguageHandler installed under code en. -/
def handler0 : LanguageHandler :=
  { get := fun code => if code = "en" then some lang0 else none }

/-- Concrete environment: every send yields exactly one attachment-free
message, edits return a fixed handle, no language handler is installed,
and exactly the type name int has a resolver (the identity, wrapped). -/
def env0 : Env :=
  { channelSend := fun _ => [msg0]
    messageEdit := fun _ _ => editedMsg
    handlers := fun _ => none
    getLanguage := fun _ => "en"
    resolverType := fun t => if t = "int" then some (fun v _ => some v) else none }

/-- Like env0 but every send yields one message carrying attachments. -/
def envB : Env := { env0 with channelSend := fun _ => [msgB] }

/-- Like env0 but with handler0 installed under the key languages. -/
def envLang : Env :=
  { env0 with handlers := fun k => if k = "languages" then some handler0 else none }

/-- Context state after one reply on a fresh context under env0. -/
def ctxAfterHi : Context :=
  { Context.init with lastResponse := some msg0, shouldEdit := true }

/-- Context state after one reply on a fresh context under envB. -/
def ctxAfterB : Context :=
  { Context.init with lastResponse := some msgB, shouldEdit := false }

/-- Helper: the optional last element of a list is a member. -/
theorem lastMem {α : Type} : ∀ (l : List α) (a : α), l.getLast? = some a → a ∈ l := by
  intro l
  induction l with
  | nil => intro a h; simp [List.getLast?] at h
  | cons x xs ih =>
    intro a h
    cases xs with
    | nil => simp [List.getLast?] at h; simp [h]
    | cons y ys =>
      rw [List.getLast?_cons_cons] at h
      exact List.mem_cons_of_mem x (ih a h)

/-- Helper: a nonempty list has an optional last element. -/
theorem lastSome {α : Type} : ∀ l : List α, l ≠ [] → ∃ a, l.getLast? = some a := by
  intro l
  induction l with
  | nil => intro h; exact absurd rfl h
  | cons x xs ih =>
    intro _
    cases xs with
    | nil => exact ⟨x, rfl⟩
    | cons y ys =>
      obtain ⟨a, ha⟩ := ih (by simp)
      exact ⟨a, by rw [List.getLast?_cons_cons]; exact ha⟩

/-- C1: reply(content) delegates to edit(content), leaving the state
untouched, when shouldEdit is set and the last recorded response has no
truthy attachments; otherwise (under the platform contract that a send
yields at least one message handle) it sends the dispatched payload,
records the last sent message as lastResponse, sets shouldEdit to the
negation of its has-attachments test, and returns that last sent
message. -/
theorem reply_dispatch (env : Env) (ctx : Context) (content : Content)
    (hne : env.channelSend (contentToPayload content) ≠ []) :
    (ctx.shouldEdit = true ∧ attachTruthy ctx.lastResponse = false →
      Context.reply ctx env content =
        (Context.edit ctx env content).map (fun m => (ctx, m)))
    ∧ (¬(ctx.shouldEdit = true ∧ attachTruthy ctx.lastResponse = false) →
      ∃ last, (env.channelSend (contentToPayload content)).getLast? = some last ∧
        Context.reply ctx env content =
          Except.ok ({ ctx with
                       lastResponse := some last,
                       shouldEdit := last.attachmentsSize == 0 }, last)) := by
  constructor
  · rintro ⟨h1, h2⟩
    have hu : ctx.usesEdit = true := by simp [Context.usesEdit, h1, h2]
    simp [Context.reply, hu]
  · intro h
    have hu : ctx.usesEdit = false := by
      cases hse : ctx.shouldEdit with
      | false => simp [Context.usesEdit, hse]
      | true =>
        cases hat : attachTruthy ctx.lastResponse with
        | false => exact absurd ⟨hse, hat⟩ h
        | true => simp [Context.usesEdit, hse, hat]
    obtain ⟨last, hlast⟩ := lastSome _ hne
    refine ⟨last, hlast, ?_⟩
    simp [Context.reply, hu, Context.sendReply, Context.setLastResponse,
      Context.setEditable, hlast, bne]

/-- Helper: a context in edit mode whose recorded response is
attachment-free is a fixed point of reply: every further reply delegates
to edit and leaves the state unchanged, over any whole sequence. -/
theorem replyAll_fixed (env : Env) (ctx : Context) (m : Message)
    (hse : ctx.shouldEdit = true) (hlr : ctx.lastResponse = some m)
    (h0 : m.attachmentsSize = 0) :
    ∀ cs, Context.replyAll ctx env cs = Except.ok ctx := by
  intro cs
  induction cs with
  | nil => rfl
  | cons c cs ih =>
    have hu : ctx.usesEdit = true := by
      simp [Context.usesEdit, hse, hlr, attachTruthy, h0]
    have hstep : Context.reply ctx env c =
        Except.ok (ctx, env.messageEdit m (contentToPayload c)) := by
      simp [Context.reply, hu, Context.edit, hlr, Except.map]
    simp [Context.replyAll, hstep, ih]

/-- C2: on a fresh context, when every message the platform sends is
attachment-free (and a send yields at least one message), shouldEdit is
true after the first reply, and every subsequent reply of the sequence
delegates to edit rather than performing a new send, leaving the state
unchanged throughout. -/
theorem reply_fresh_sequence_edits (env : Env)
    (hne : ∀ p, env.channelSend p ≠ [])
    (hatt : ∀ p m, m ∈ env.channelSend p → m.attachmentsSize = 0)
    (c : Content) :
    ∃ ctx1 m1, Context.reply Context.init env c = Except.ok (ctx1, m1) ∧
      ctx1.shouldEdit = true ∧
      (∀ c2, Context.usesEdit ctx1 = true ∧
        Context.reply ctx1 env c2 =
          (Context.edit ctx1 env c2).map (fun m => (ctx1, m))) ∧
      (∀ cs, Context.replyAll ctx1 env cs = Except.ok ctx1) := by
  obtain ⟨last, hlast⟩ := lastSome _ (hne (contentToPayload c))
  have h0 : last.attachmentsSize = 0 := hatt _ _ (lastMem _ _ hlast)
  refine ⟨{ Context.init with lastResponse := some last, shouldEdit := true },
    last, ?_, rfl, ?_, ?_⟩
  · have hstep : Context.reply Context.init env c = Context.sendReply Context.init env c := rfl
    rw [hstep]
    unfold Context.sendReply Context.setLastResponse Context.setEditable
    simp [hlast, h0, Context.init]
  · intro c2
    have hu : Context.usesEdit
        { Context.init with lastResponse := some last, shouldEdit := true } = true := by
      simp [Context.usesEdit, attachTruthy, h0]
    exact ⟨hu, by simp [Context.reply, hu]⟩
  · exact replyAll_fixed env _ last rfl rfl h0

/-- C3: after every successful reply, from any state, shouldEdit equals
the no-attachments test of the recorded most recent outbound message
(lastResponse) — also on the calls that delegated to edit. -/
theorem reply_reevaluates_shouldEdit (env : Env) (ctx : Context) (content : Content)
    (ctx' : Context) (m : Message)
    (h : Context.reply ctx env content = Except.ok (ctx', m)) :
    ∃ last, ctx'.lastResponse = some last ∧
      ctx'.shouldEdit = (last.attachmentsSize == 0) := by
  unfold Context.reply at h
  by_cases hu : ctx.usesEdit = true
  · rw [if_pos hu] at h
    unfold Context.edit at h
    cases hlr : ctx.lastResponse with
    | none => rw [hlr] at h; exact absurd h (by simp [Except.map])
    | some m0 =>
      rw [hlr] at h
      have hpair : ctx = ctx' ∧ env.messageEdit m0 (contentToPayload content) = m := by
        simpa [Except.map, Prod.ext_iff] using h
      have hu' := hu
      unfold Context.usesEdit at hu'
      rw [Bool.and_eq_true] at hu'
      have hse : ctx.shouldEdit = true := hu'.1
      have hat : attachTruthy ctx.lastResponse = false := by
        have hnot := hu'.2
        cases hat : attachTruthy ctx.lastResponse
        · rfl
        · rw [hat] at hnot; simp at hnot
      have h0 : m0.attachmentsSize = 0 := by
        rw [hlr] at hat
        simpa [attachTruthy] using hat
      have hctx : ctx' = ctx := hpair.1.symm
      subst hctx
      exact ⟨m0, hlr, by simp [hse, h0]⟩
  · rw [if_neg hu] at h
    simp [Context.sendReply, Context.setLastResponse, Context.setEditable] at h
    cases hlast : (env.channelSend (contentToPayload content)).getLast? with
    | none => rw [hlast] at h; simp at h
    | some last =>
      rw [hlast] at h
      simp [Prod.ext_iff] at h
      obtain ⟨hctx, hm⟩ := h
      refine ⟨last, ?_, ?_⟩
      · rw [← hctx]
      · rw [← hctx]
        simp [bne]

/-- Witness for reply_dispatch at the concrete environment env0 on a
fresh context: the send branch applies and yields ctxAfterHi and msg0. -/
theorem reply_dispatch_witness :
    Context.reply Context.init env0 (Content.text "hi") = Except.ok (ctxAfterHi, msg0) := by
  obtain ⟨last, hlast, heq⟩ :=
    (reply_dispatch env0 Context.init (Content.text "hi") (by simp [env0])).2
      (by simp [Context.init])
  have h2 : (([msg0] : List Message)).getLast? = some last := hlast
  simp at h2
  rw [← h2] at heq
  exact heq

/-- Witness for reply_fresh_sequence_edits under env0: after the first
reply the context is ctxAfterHi, in edit mode, and two further replies
leave it unchanged. -/
theorem reply_fresh_sequence_edits_witness :
    ctxAfterHi.shouldEdit = true ∧
    Context.replyAll ctxAfterHi env0 [Content.text "a", Content.text "b"] =
      Except.ok ctxAfterHi := by
  obtain ⟨ctx1, m1, hstep, hse, hedits, hall⟩ :=
    reply_fresh_sequence_edits env0
      (fun p => by simp [env0])
      (fun p m hm => by
        simp [env0] at hm
        simp [hm, msg0])
      (Content.text "hi")
  have h1 : (Except.ok (ctx1, m1) : Except Err (Context × Message)) =
      Except.ok (ctxAfterHi, msg0) := by
    rw [← hstep]
    exact rfl
  injection h1 with h2
  have hctx : ctx1 = ctxAfterHi := congrArg Prod.fst h2
  subst hctx
  exact ⟨hse, hall _⟩

/-- Witness for reply_reevaluates_shouldEdit at env0 on a fresh context:
the resulting state ctxAfterHi records msg0 and its shouldEdit equals the
no-attachments test of msg0. -/
theorem reply_reevaluates_shouldEdit_witness :
    ctxAfterHi.lastResponse = some msg0 ∧
    ctxAfterHi.shouldEdit = (msg0.attachmentsSize == 0) := by
  obtain ⟨last, h1, h2⟩ :=
    reply_reevaluates_shouldEdit env0 Context.init (Content.text "hi") ctxAfterHi msg0 rfl
  have h3 : some last = some msg0 := by
    rw [← h1]
    exact rfl
  injection h3 with hl
  subst hl
  exact ⟨h1, h2⟩

/-- C4: evidence for the template-tag defect. The tag works for the
single-interpolation example of the claim, but with two interpolations
the un-spread rest array (translate()(a1, a2) instead of spreading a2)
becomes the single element values[0], so the whole values array prints
comma-joined after the first literal segment: on segments a, b, empty
with values x, y the code queries the path ax,yb, where the specified
interleaving gives axby. -/
theorem t_tag_unspread_values :
    Context.t Context.init envLang ["hello ", ""] [some "world"] =
      Context.translate Context.init envLang "hello world" [] ∧
    Context.t Context.init envLang ["a", "b", ""] [some "x", some "y"] =
      Context.translate Context.init envLang "ax,yb" [] ∧
    Context.t Context.init envLang ["a", "b", ""] [some "x", some "y"] =
      Except.ok "t:ax,yb" ∧
    specTagJoin ["a", "b", ""] [some "x", some "y"] = "axby" :=
  ⟨rfl, rfl, rfl, rfl⟩

/-- C5 counterexample: under env0 one reply on a fresh context produces
and returns msg0, yet the messages mapping of the resulting context is
still empty — the produced message was not recorded in it. -/
theorem reply_message_not_recorded :
    Context.reply Context.init env0 (Content.text "hi") = Except.ok (ctxAfterHi, msg0) ∧
    ctxAfterHi.messages = [] :=
  ⟨rfl, rfl⟩

/-- C5 amended: no context operation records into the messages mapping:
it starts empty and every successful reply leaves it unchanged (edit, as
translated from the source, updates no field at all), so the messages a
reply send produces are not recorded in it. -/
theorem messages_not_mutated (env : Env) (ctx : Context) (content : Content) :
    Context.init.messages = [] ∧
    (∀ ctx' m, Context.reply ctx env content = Except.ok (ctx', m) →
      ctx'.messages = ctx.messages) := by
  refine ⟨rfl, ?_⟩
  intro ctx' m h
  unfold Context.reply at h
  by_cases hu : ctx.usesEdit = true
  · rw [if_pos hu] at h
    unfold Context.edit at h
    cases hlr : ctx.lastResponse with
    | none => rw [hlr] at h; exact absurd h (by simp [Except.map])
    | some m0 =>
      rw [hlr] at h
      have hpair : ctx = ctx' ∧ env.messageEdit m0 (contentToPayload content) = m := by
        simpa [Except.map, Prod.ext_iff] using h
      rw [← hpair.1]
  · rw [if_neg hu] at h
    simp [Context.sendReply, Context.setLastResponse, Context.setEditable] at h
    cases hlast : (env.channelSend (contentToPayload content)).getLast? with
    | none => rw [hlast] at h; simp at h
    | some last =>
      rw [hlast] at h
      simp [Prod.ext_iff] at h
      obtain ⟨hctx, hm⟩ := h
      rw [← hctx]

/-- Witness for messages_not_mutated: the messages mapping after a first
reply under env0 equals the (empty) initial one. -/
theorem messages_not_mutated_witness :
    ctxAfterHi.messages = Context.init.messages :=
  (messages_not_mutated env0 Context.init (Content.text "hi")).2 ctxAfterHi msg0 rfl

/-- C6: resolve(value, type) throws the type-does-not-exist error exactly
when the name is unregistered in the dispatcher's resolver registry;
otherwise it returns the result of the resolver applied to
(value, this context), a missing result being null (none). -/
theorem resolve_registry (env : Env) (ctx : Context) (value type : String) :
    (env.resolverType type = none →
      Context.resolve ctx env value type =
        Except.error (Err.domain (unknownTypeMsg type)))
    ∧ ((∃ e, Context.resolve ctx env value type = Except.error e) ↔
        env.resolverType type = none)
    ∧ (∀ r, env.resolverType type = some r →
      Context.resolve ctx env value type = Except.ok (r value ctx)) := by
  unfold Context.resolve
  cases h : env.resolverType type with
  | none =>
    refine ⟨fun _ => rfl, by simp, ?_⟩
    intro r hr
    exact Option.noConfusion hr
  | some r0 =>
    refine ⟨fun hn => Option.noConfusion hn, by simp, ?_⟩
    intro r hr
    have hr0 : r0 = r := by injection hr
    rw [hr0]

/-- Witness for resolve_registry: under env0, int is registered and its
resolver is invoked on (value, context); nope is unregistered and fails
with the domain error. -/
theorem resolve_registry_witness :
    Context.resolve Context.init env0 "5" "int" = Except.ok (some "5") ∧
    Context.resolve Context.init env0 "5" "nope" =
      Except.error (Err.domain (unknownTypeMsg "nope")) := by
  constructor
  · exact (resolve_registry env0 Context.init "5" "int").2.2 (fun v _ => some v) rfl
  · exact (resolve_registry env0 Context.init "5" "nope").1 rfl

/-- C7: translate(path, vars) throws the no-language-handler error exactly
when no active language resolves — no handler installed under the
languages key, or the handler yields no Language for the resolved code —
and otherwise returns the resolved Language's translate applied to
(path, vars). -/
theorem translate_language (env : Env) (ctx : Context) (path : String) (vars : Dictionary) :
    (Context.language ctx env = none ↔
      (env.handlers "languages" = none ∨
        ∃ h, env.handlers "languages" = some h ∧ h.get (env.getLanguage ctx) = none))
    ∧ (Context.language ctx env = none →
      Context.translate ctx env path vars =
        Except.error (Err.domain "No Language Handler Available"))
    ∧ (∀ l, Context.language ctx env = some l →
      Context.translate ctx env path vars = Except.ok (l.translate path vars))
    ∧ ((∃ e, Context.translate ctx env path vars = Except.error e) ↔
      Context.language ctx env = none) := by
  refine ⟨?_, ?_, ?_, ?_⟩
  · unfold Context.language
    cases hh : env.handlers "languages" with
    | none => simp
    | some handler =>
      show handler.get (env.getLanguage ctx) = none ↔ _
      constructor
      · intro hg
        exact Or.inr ⟨handler, rfl, hg⟩
      · rintro (hcontra | ⟨h, hh2, hg⟩)
        · exact Option.noConfusion hcontra
        · have hh3 : handler = h := by injection hh2
          rw [hh3]
          exact hg
  · intro hnone
    unfold Context.translate
    rw [hnone]
  · intro l hl
    unfold Context.translate
    rw [hl]
  · constructor
    · rintro ⟨e, he⟩
      unfold Context.translate at he
      cases hl : Context.language ctx env with
      | none => rfl
      | some l =>
        rw [hl] at he
        exact Except.noConfusion he
    · intro hnone
      refine ⟨Err.domain "No Language Handler Available", ?_⟩
      unfold Context.translate
      rw [hnone]

/-- Witness for translate_language: with no handler installed (env0) the
call fails with the domain error; with handler0 installed (envLang) it
returns the language's translation of the path. -/
theorem translate_language_witness :
    Context.translate Context.init env0 "greet" [] =
      Except.error (Err.domain "No Language Handler Available") ∧
    Context.translate Context.init envLang "greet" [] = Except.ok "t:greet" := by
  constructor
  · exact (translate_language env0 Context.init "greet" []).2.1 rfl
  · exact (translate_language envLang Context.init "greet" []).2.2.1 lang0 rfl

/-- C8: edit(content) with no recorded lastResponse fails with the
runtime null-access class of error (not a thrown domain error); with a
recorded lastResponse it delegates to that message's edit capability
under the same text-vs-embed dispatch as reply (contentToPayload). -/
theorem edit_null_deref (env : Env) (ctx : Context) (content : Content) :
    (ctx.lastResponse = none →
      Context.edit ctx env content = Except.error Err.runtimeNull)
    ∧ (∀ m, ctx.lastResponse = some m →
      Context.edit ctx env content =
        Except.ok (env.messageEdit m (contentToPayload content))) := by
  unfold Context.edit
  cases h : ctx.lastResponse with
  | none => exact ⟨fun _ => rfl, fun m hm => Option.noConfusion hm⟩
  | some m0 =>
    refine ⟨fun hn => Option.noConfusion hn, ?_⟩
    intro m hm
    have hm0 : m0 = m := by injection hm
    rw [hm0]

/-- Witness for edit_null_deref: on a fresh context (no prior response)
edit fails with the runtime null error; on ctxAfterHi it returns the
edited handle. -/
theorem edit_null_deref_witness :
    Context.edit Context.init env0 (Content.text "x") = Except.error Err.runtimeNull ∧
    Context.edit ctxAfterHi env0 (Content.embed "e") = Except.ok editedMsg := by
  constructor
  · exact (edit_null_deref env0 Context.init (Content.text "x")).1 rfl
  · exact (edit_null_deref env0 ctxAfterHi (Content.embed "e")).2 msg0 rfl

/-- C9: when a reply takes the send path and the sent message carries
attachments, shouldEdit is false immediately afterwards and the next
reply again takes the send path rather than delegating to edit. -/
theorem reply_attachments_force_send (env : Env) (ctx : Context) (c c2 : Content)
    (hbranch : Context.usesEdit ctx = false)
    (hne : env.channelSend (contentToPayload c) ≠ [])
    (hatt : ∀ m, (env.channelSend (contentToPayload c)).getLast? = some m →
      m.attachmentsSize ≠ 0) :
    ∃ ctx' m, Context.reply ctx env c = Except.ok (ctx', m) ∧
      ctx'.shouldEdit = false ∧
      Context.usesEdit ctx' = false ∧
      Context.reply ctx' env c2 = Context.sendReply ctx' env c2 := by
  obtain ⟨last, hlast⟩ := lastSome _ hne
  have h0 : last.attachmentsSize ≠ 0 := hatt last hlast
  refine ⟨{ ctx with
            lastResponse := some last,
            shouldEdit := false }, last, ?_, rfl, rfl, ?_⟩
  · simp [Context.reply, hbranch, Context.sendReply, Context.setLastResponse,
      Context.setEditable, hlast, h0]
  · rfl

/-- Witness for reply_attachments_force_send: under envB (each send
carries two attachments) a fresh reply yields ctxAfterB with shouldEdit
false, and a second reply again performs a send. -/
theorem reply_attachments_force_send_witness :
    Context.reply Context.init envB (Content.text "a") = Except.ok (ctxAfterB, msgB) ∧
    ctxAfterB.shouldEdit = false ∧
    Context.reply ctxAfterB envB (Content.text "b") =
      Context.sendReply ctxAfterB envB (Content.text "b") := by
  obtain ⟨ctx', m, h1, h2, h3, h4⟩ :=
    reply_attachments_force_send envB Context.init (Content.text "a") (Content.text "b")
      rfl (by simp [envB])
      (fun m hm => by
        simp [envB] at hm
        simp [← hm, msgB])
  have h5 : (Except.ok (ctx', m) : Except Err (Context × Message)) =
      Except.ok (ctxAfterB, msgB) := by
    rw [← h1]
    exact rfl
  injection h5 with h6
  have hc : ctx' = ctxAfterB := congrArg Prod.fst h6
  have hm2 : m = msgB := congrArg Prod.snd h6
  subst hc
  subst hm2
  exact ⟨h1, h2, h4⟩

/-- C10: a reply that delegates to edit leaves the response-tracking
state exactly as before the call: the context comes back unchanged, so
the edited handle is not recorded as lastResponse, and shouldEdit and
messages are untouched (edit itself, translated from the source, updates
no field). -/
theorem reply_edit_frame (env : Env) (ctx : Context) (content : Content)
    (ctx' : Context) (m : Message)
    (hu : Context.usesEdit ctx = true)
    (h : Context.reply ctx env content = Except.ok (ctx', m)) :
    ctx' = ctx ∧ ctx'.shouldEdit = ctx.shouldEdit ∧
    ctx'.lastResponse = ctx.lastResponse ∧ ctx'.messages = ctx.messages := by
  unfold Context.reply at h
  rw [if_pos hu] at h
  unfold Context.edit at h
  cases hlr : ctx.lastResponse with
  | none => rw [hlr] at h; exact absurd h (by simp [Except.map])
  | some m0 =>
    rw [hlr] at h
    have hpair : ctx = ctx' ∧ env.messageEdit m0 (contentToPayload content) = m := by
      simpa [Except.map, Prod.ext_iff] using h
    have hc : ctx' = ctx := hpair.1.symm
    refine ⟨hc, by rw [hc], ?_, by rw [hc]⟩
    rw [hc]
    exact hlr

/-- Witness for reply_edit_frame: the edit-mode context ctxAfterHi
replies by editing and is returned unchanged. -/
theorem reply_edit_frame_witness :
    Context.reply ctxAfterHi env0 (Content.text "x") =
      Except.ok (ctxAfterHi, editedMsg) ∧
    ctxAfterHi.messages = ctxAfterHi.messages := by
  refine ⟨rfl, ?_⟩
  exact (reply_edit_frame env0 ctxAfterHi (Content.text "x") ctxAfterHi editedMsg rfl rfl).2.2.2

end Blade
